import Mathlib

/-!
Verification development for the naoqi_ros2 / libqi fragment: the `ka`
type-erasure utility layer (src/libqi/ka/utility.hpp) and the messaging
core exercised by the PingPongService test
(src/libqi/tests/messaging/remoteserviceowner.cpp).

The `ka` utilities are embedded directly from the source.  The messaging
core (DynamicValue, MetaObject, Future/Promise, Session/Endpoint) is only
called by the sources here, so those components are modelled from the
specification, each with a doc comment saying so.
-/

namespace Qi

/-! ## `ka` utility layer (embedded from src/libqi/ka/utility.hpp) -/

/-- A value of a move-constructible C++ type: either a live value or the
moved-from husk left behind by `std::move` plus a move construction. -/
inductive MValue (T : Type) where
  | owned (v : T)
  | movedFrom
  deriving DecidableEq, Repr

/-- A minimal store of objects, used to observe that reference-returning
casts neither read nor write any object: a function from addresses to
values. -/
def Store (T : Type) : Type := Nat → MValue T

/-- Embedding of `ka::mv` (utility.hpp lines 34-37): a `static_cast` of a
reference to an rvalue reference.  It returns (a reference to) the same
object and performs no memory access, so the store is unchanged. -/
def mv (s : Store T) (r : Nat) : Store T × Nat :=
  (s, r)

/-- Modelled from the spec of C++14 `std::move` (the source's own doc
comment: "Less noisy equivalent to `std::move`", see n3690/20.2.4/6):
`std::move` returns an rvalue reference to the same object without reading
or modifying it. -/
def std_move_spec (s : Store T) (r : Nat) : Store T × Nat :=
  (s, r)

/-- Reading a value out of an object by move construction, as
`T old_value = std::move(obj)` does in `ka::exchange`: the old value is
produced and the object is left moved-from. -/
def moveOut : MValue T → MValue T × MValue T
  | .owned v => (.owned v, .movedFrom)
  | .movedFrom => (.movedFrom, .movedFrom)

/-- Embedding of `ka::exchange` (utility.hpp lines 100-105):
`T old_value = std::move(obj); obj = fwd<U>(new_value); return old_value;`.
`assign` is `T`'s assignment from `U` (the identity when `U = T`).
The result is the pair (value of `obj` after the call, returned value). -/
def exchange (obj : MValue T) (new_value : U) (assign : U → T) :
    MValue T × MValue T :=
  let step := moveOut obj
  let old_value := step.1
  let obj1 := step.2
  let _ := obj1
  (.owned (assign new_value), old_value)

/-- Embedding of the `std::tuple_element` specializations for
`ka::type_t<A...>` (utility.hpp lines 160-178).  A type pack is a list of
type codes (`α`); the specializations are, in C++ partial-ordering
priority: index 0 picks the first type, index 1 the second, index 2 the
third, and any other index `n ≥ 1` on a non-empty pack recurses with
`n - 1` on the tail.  No specialization applies to an empty pack (the
primary template, which has no member `type`): the result is `none`. -/
def tuple_element : Nat → List α → Option α
  | 0, t :: _ => some t
  | 1, _ :: u :: _ => some u
  | 2, _ :: _ :: v :: _ => some v
  | Nat.succ n, _ :: u => tuple_element n u
  | _, [] => none

/-! ## Future/Promise (modelled from the spec) -/

/-- Modelled from the spec: the error kinds of §7 that this development
uses (`qi` messaging error reporting; the implementation is not among the
sources). -/
inductive Err where
  | typeMismatch
  | noSuchAction
  | ambiguousAction
  | connectionClosed
  | promiseAlreadySettled
  deriving DecidableEq, Repr

/-- Modelled from the spec: a DynamicValue payload placeholder used by the
Promise model; the full DynamicValue model appears below. -/
abbrev PVal := Nat

/-- Modelled from the spec (§3, §4.4): the state of a Future/Promise pair,
`Pending -> Resolved(value) | Rejected(error) | Canceled`; the `qi::Promise`
implementation is not among the sources. -/
inductive PromiseState where
  | pending
  | resolved (v : PVal)
  | rejected (e : String)
  | canceled
  deriving DecidableEq, Repr

/-- Modelled from the spec (§4.4): the three settling operations of a
Promise, `setValue`, `setError`, `setCanceled`. -/
inductive SettleOp where
  | setValue (v : PVal)
  | setError (e : String)
  | setCanceled
  deriving DecidableEq, Repr

/-- Modelled from the spec (§4.4, §7): settling a Promise.  Each operation
is the sole legal state transition, enforced once: from `pending` the
operation takes effect and no error is reported; on an already-settled
Promise the state is left unchanged and `PromiseAlreadySettled` is
reported to the caller. -/
def settle (s : PromiseState) (op : SettleOp) : PromiseState × Option Err :=
  match s with
  | .pending =>
    match op with
    | .setValue v => (.resolved v, none)
    | .setError e => (.rejected e, none)
    | .setCanceled => (.canceled, none)
  | _ => (s, some .promiseAlreadySettled)

/-! ## DynamicValue / TypeDescriptor (modelled from the spec) -/

/-- Modelled from the spec (§3): the widths of the integer family of
DynamicValue scalars; the `qi::AnyValue` implementation is not among the
sources. -/
inductive Width where
  | w8 | w16 | w32 | w64
  deriving DecidableEq, Repr

/-- Modelled from the spec (§3): the widths of the float family. -/
inductive FWidth where
  | f32 | f64
  deriving DecidableEq, Repr

/-- Modelled from the spec (§3): a TypeDescriptor, identifying a
DynamicValue's shape.  Two descriptors are equal iff their signature
strings are equal; here the descriptor is the shape itself, and equality
of shapes plays the role of signature-string equality.  Sequences and
mappings hold DynamicValues (heterogeneous), so their descriptors carry
no element descriptor. -/
inductive Ty where
  | tvoid
  | tbool
  | tint (w : Width)
  | tfloat (w : FWidth)
  | tstring
  | tseq
  | tmap
  | tobj
  | traw
  deriving DecidableEq, Repr

/-- Modelled from the spec (§3): DynamicValue, a tagged union over
void, bool, the integer family, the float family, string,
sequence-of-DynamicValue, ordered mapping name-to-DynamicValue,
object-reference (endpoint id, object id) and raw buffer.  Float payloads
are carried as opaque bit patterns, never computed with. -/
inductive DynamicValue where
  | vvoid
  | vbool (b : Bool)
  | vint (w : Width) (i : Int)
  | vfloat (w : FWidth) (bits : Nat)
  | vstring (s : String)
  | vseq (xs : List DynamicValue)
  | vmap (m : List (String × DynamicValue))
  | vobj (endpointId objectId : Nat)
  | vraw (bs : List Nat)
  deriving Repr

/-- Modelled from the spec (§3): the TypeDescriptor of a DynamicValue;
the invariant that the active tag always matches the descriptor makes the
descriptor a function of the value. -/
def descriptor : DynamicValue → Ty
  | .vvoid => .tvoid
  | .vbool _ => .tbool
  | .vint w _ => .tint w
  | .vfloat w _ => .tfloat w
  | .vstring _ => .tstring
  | .vseq _ => .tseq
  | .vmap _ => .tmap
  | .vobj _ _ => .tobj
  | .vraw _ => .traw

/-- Modelled from the spec (§4.1): the native C++ type a descriptor
corresponds to, as seen through construct-from-native and
extract-to-native. -/
def Native : Ty → Type
  | .tvoid => Unit
  | .tbool => Bool
  | .tint _ => Int
  | .tfloat _ => Nat
  | .tstring => String
  | .tseq => List DynamicValue
  | .tmap => List (String × DynamicValue)
  | .tobj => Nat × Nat
  | .traw => List Nat

/-- Modelled from the spec (§4.1): construct-from-native(T), packing a
native value of descriptor `t` into a DynamicValue. -/
def construct : (t : Ty) → Native t → DynamicValue
  | .tvoid, _ => .vvoid
  | .tbool, b => .vbool b
  | .tint w, i => .vint w i
  | .tfloat w, x => .vfloat w x
  | .tstring, s => .vstring s
  | .tseq, xs => .vseq xs
  | .tmap, m => .vmap m
  | .tobj, r => .vobj r.1 r.2
  | .traw, bs => .vraw bs

/-- Modelled from the spec (§4.1, §7): extract-to-native(T), which fails
with `TypeMismatch` whenever the value's descriptor differs from the
requested descriptor `t` — including when only the numeric width differs,
so narrowing never silently truncates. -/
def extract : (t : Ty) → DynamicValue → Except Err (Native t)
  | .tvoid, .vvoid => .ok ()
  | .tbool, .vbool b => .ok b
  | .tint w, .vint w' i => if w' = w then .ok i else .error .typeMismatch
  | .tfloat w, .vfloat w' x => if w' = w then .ok x else .error .typeMismatch
  | .tstring, .vstring s => .ok s
  | .tseq, .vseq xs => .ok xs
  | .tmap, .vmap m => .ok m
  | .tobj, .vobj e o => .ok (e, o)
  | .traw, .vraw bs => .ok bs
  | _, _ => .error .typeMismatch

/-- Modelled from the spec (§3): the bit width of an integer descriptor,
used to state what "narrower" means. -/
def widthBits : Width → Nat
  | .w8 => 8
  | .w16 => 16
  | .w32 => 32
  | .w64 => 64

/-- Modelled from the spec (§3): the bit width of a float descriptor. -/
def fwidthBits : FWidth → Nat
  | .f32 => 32
  | .f64 => 64

/-! ## MetaObject (modelled from the spec) -/

/-- Modelled from the spec (§3): an action descriptor of a MetaObject:
id, name, parameter signature, return signature.  Signatures are
signature strings. -/
structure ActionDesc where
  aid : Nat
  aname : String
  paramSig : List String
  retSig : String
  deriving DecidableEq, Repr

/-- Modelled from the spec (§3): a MetaObject's ordered set of action
descriptors (signals and properties play no role in the claims below). -/
structure MetaObject where
  actions : List ActionDesc
  deriving DecidableEq, Repr

/-- Modelled from the spec (§4.2): whether an action descriptor matches a
`findAction` query — the name and the full argument signature must both
match; a name match alone never suffices. -/
def actionMatches (nm : String) (sigs : List String) (a : ActionDesc) : Bool :=
  a.aname == nm && a.paramSig == sigs

/-- Modelled from the spec (§4.2, §7): `findAction(name, argSignatures)`;
fails `NoSuchAction` on zero matches and `AmbiguousAction` on more than
one match with identical signature; the `qi::MetaObject` implementation is
not among the sources. -/
def findAction (m : MetaObject) (nm : String) (sigs : List String) :
    Except Err Nat :=
  match m.actions.filter (actionMatches nm sigs) with
  | [] => .error .noSuchAction
  | [a] => .ok a.aid
  | _ :: _ :: _ => .error .ambiguousAction

/-! ## Signal subscriptions (modelled from the spec) -/

/-- Modelled from the spec (§4.3): an opaque subscriber handler. -/
abbrev Handler := Nat

/-- Modelled from the spec (§4.3): `unsubscribe(SubscriptionId)` removes
the subscription with that id from the subscriber list; it is idempotent
and never reports an error, so its result is the new list together with
`none` for the error slot.  The `qi::SignalBase` implementation is not
among the sources. -/
def unsubscribe (subs : List (Nat × Handler)) (sid : Nat) :
    List (Nat × Handler) × Option Err :=
  (subs.filter (fun s => s.1 != sid), none)

/-! ## Connection teardown and reply matching (modelled from the spec) -/

/-- Modelled from the spec (§4.6): the per-call state on the caller side:
awaiting a reply, completed with a value, or failed with an error. -/
inductive CallState where
  | awaitingReply
  | completed (v : PVal)
  | failed (e : Err)
  deriving DecidableEq, Repr

/-- Modelled from the spec (§4.6, §5): a connection's caller-side state:
the pending table keyed by correlation id, mapping each outstanding call
to its Future, and the state of every Future by id.  The `qi` messaging
implementation is not among the sources. -/
structure Conn where
  pending : List (Nat × Nat)
  futures : Nat → CallState

/-- Pointwise update of the future table. -/
def setFut (fs : Nat → CallState) (f : Nat) (st : CallState) :
    Nat → CallState :=
  fun x => if x = f then st else fs x

/-- Modelled from the spec (§4.5, §5): on teardown every pending-Future
entry of the connection is rejected with `ConnectionClosed`. -/
def rejectAll (fs : Nat → CallState) : List (Nat × Nat) → (Nat → CallState)
  | [] => fs
  | e :: rest => rejectAll (setFut fs e.2 (.failed .connectionClosed)) rest

/-- Modelled from the spec (§4.5): `close()` rejects all in-flight
Futures with `ConnectionClosed` and empties the pending table. -/
def close (c : Conn) : Conn :=
  { pending := [], futures := rejectAll c.futures c.pending }

/-- First pending entry for a correlation id, if any. -/
def findPending : List (Nat × Nat) → Nat → Option Nat
  | [], _ => none
  | e :: rest, k => if e.1 = k then some e.2 else findPending rest k

/-- Pending table with a correlation id's entry removed. -/
def removePending (l : List (Nat × Nat)) (k : Nat) : List (Nat × Nat) :=
  l.filter (fun e => e.1 != k)

/-- Modelled from the spec (§4.6): receipt of a ReplyFrame with
correlation id `k`: the id is looked up in the pending table, removed on
match and the matching Future resolved; a frame with no matching pending
id is dropped, leaving the connection unchanged. -/
def onReply (c : Conn) (k : Nat) (v : PVal) : Conn :=
  match findPending c.pending k with
  | some f =>
    { pending := removePending c.pending k
      futures := setFut c.futures f (.completed v) }
  | none => c

/-! ## Endpoint reference cache (modelled from the spec) -/

/-- Modelled from the spec (§3, §4.5): a Proxy holds a reference
descriptor — peer endpoint identity plus remote object id — and a local
identity `pid`; all other state is remote. -/
structure Proxy where
  peerEndpointId : Nat
  objectId : Nat
  pid : Nat
  deriving DecidableEq, Repr

/-- A reference descriptor: (endpoint id, object id). -/
abbrev Ref := Nat × Nat

/-- Modelled from the spec (§4.5, §9): an Endpoint's reference cache,
mapping (peer endpoint id, object id) to a locally-owned Proxy, plus a
fresh-proxy counter. -/
structure Endpoint where
  cache : List (Ref × Proxy)
  nextPid : Nat
  deriving DecidableEq, Repr

/-- Lookup in the reference cache by reference descriptor. -/
def lookupRef : List (Ref × Proxy) → Ref → Option Proxy
  | [], _ => none
  | e :: rest, r => if e.1 = r then some e.2 else lookupRef rest r

/-- Modelled from the spec (§4.5): on receiving an object reference, the
Endpoint either reuses the existing Proxy for that (endpoint id, object
id) pair or constructs a new one, caching it under that pair. -/
def resolveRef (ep : Endpoint) (r : Ref) : Endpoint × Proxy :=
  match lookupRef ep.cache r with
  | some p => (ep, p)
  | none =>
    let p : Proxy :=
      { peerEndpointId := r.1, objectId := r.2, pid := ep.nextPid }
    ({ cache := (r, p) :: ep.cache, nextPid := ep.nextPid + 1 }, p)

/-- A sequence of further reference resolutions (other hops of the
give/take exchange) applied to an Endpoint. -/
def resolveSeq (ep : Endpoint) : List Ref → Endpoint
  | [] => ep
  | r :: rs => resolveSeq (resolveRef ep r).1 rs

/-- Well-formedness of a reference cache: every cached Proxy identifies
exactly the reference it is cached under. -/
def cacheWF (cache : List (Ref × Proxy)) : Prop :=
  ∀ e ∈ cache, e.2.peerEndpointId = e.1.1 ∧ e.2.objectId = e.1.2

/-! ## Theorems -/

/-- C2: a Promise settles exactly once.  The first
setValue/setError/setCanceled on a pending Promise succeeds with no
error; any second settling attempt is rejected with
`PromiseAlreadySettled` and leaves the observed state — hence the value
or error seen through the Future — unchanged. -/
theorem promise_single_settlement (op1 op2 : SettleOp) :
    (settle .pending op1).2 = none ∧
    (settle (settle .pending op1).1 op2).1 = (settle .pending op1).1 ∧
    (settle (settle .pending op1).1 op2).2 = some .promiseAlreadySettled := by
  cases op1 <;> cases op2 <;> simp [settle]

/-- C6: extracting a DynamicValue integer or float to a strictly narrower
numeric descriptor fails with `TypeMismatch`; the value is never silently
truncated. -/
theorem extract_narrowing_fails (wv wt : Width) (i : Int)
    (fv ft : FWidth) (bits : Nat)
    (hw : widthBits wt < widthBits wv) (hf : fwidthBits ft < fwidthBits fv) :
    extract (.tint wt) (.vint wv i) = .error .typeMismatch ∧
    extract (.tfloat ft) (.vfloat fv bits) = .error .typeMismatch := by
  constructor
  · cases wv <;> cases wt <;> simp_all [extract, widthBits]
  · cases fv <;> cases ft <;> simp_all [extract, fwidthBits]

/-- C6 witness: extracting a 64-bit integer value to the 8-bit integer
descriptor fails with `TypeMismatch`. -/
theorem extract_narrowing_fails_witness :
    widthBits .w8 < widthBits .w64 ∧ fwidthBits .f32 < fwidthBits .f64 ∧
    (extract (.tint .w8) (.vint .w64 300) = .error .typeMismatch ∧
     extract (.tfloat .f32) (.vfloat .f64 77) = .error .typeMismatch) :=
  ⟨by decide, by decide,
   extract_narrowing_fails .w64 .w8 300 .f64 .f32 77 (by decide) (by decide)⟩

/-- C7: `unsubscribe` is idempotent: a second call with the same
SubscriptionId reports no error and leaves the subscriber list exactly as
the first call left it. -/
theorem unsubscribe_idempotent (subs : List (Nat × Handler)) (sid : Nat) :
    (unsubscribe (unsubscribe subs sid).1 sid).1 = (unsubscribe subs sid).1 ∧
    (unsubscribe (unsubscribe subs sid).1 sid).2 = none := by
  refine ⟨?_, rfl⟩
  simp [unsubscribe, List.filter_filter]

/-- C8: `ka::exchange(obj, new_value)` returns the value `obj` held
before the call, and afterwards `obj` holds `new_value` (converted by
`T`'s assignment from `U`; the identity conversion when `U = T`),
matching `std::exchange` from C++14. -/
theorem exchange_returns_old_sets_new (obj : MValue T) (new_value : U)
    (assign : U → T) :
    (exchange obj new_value assign).2 = obj ∧
    (exchange obj new_value assign).1 = .owned (assign new_value) := by
  cases obj <;> simp [exchange, moveOut]

/-- C9: `ka::mv` is equivalent to `std::move`: both return (a reference
to) the same object and leave every object in the store untouched, so a
program using `ka::mv` behaves identically to one using `std::move`. -/
theorem mv_equiv_std_move (s : Store T) (r : Nat) :
    mv s r = std_move_spec s r ∧ (mv s r).1 = s ∧ (mv s r).2 = r :=
  ⟨rfl, rfl, rfl⟩

/-- C3: extract-to-native after construct-from-native at the same
descriptor is the identity, and extraction at a descriptor different from
the value's fails with `TypeMismatch`. -/
theorem dynamic_value_roundtrip :
    (∀ (t : Ty) (x : Native t), extract t (construct t x) = .ok x) ∧
    (∀ (t : Ty) (v : DynamicValue),
      descriptor v ≠ t → extract t v = .error .typeMismatch) := by
  constructor
  · intro t x
    cases t <;> simp [construct, extract]
    rfl
  · intro t v h
    cases t <;> cases v <;> simp_all [descriptor, extract]

/-- C3 witness: a string survives the round trip, and extracting a
32-bit integer value at the 8-bit descriptor fails with `TypeMismatch`. -/
theorem dynamic_value_roundtrip_witness :
    extract .tstring (construct .tstring "qi") = .ok "qi" ∧
    descriptor (.vint .w32 5) ≠ Ty.tint .w8 ∧
    extract (.tint .w8) (.vint .w32 5) = .error .typeMismatch :=
  ⟨dynamic_value_roundtrip.1 .tstring "qi", by decide,
   dynamic_value_roundtrip.2 (.tint .w8) (.vint .w32 5) (by decide)⟩

/-- C4: `findAction` returns the unique action whose name and signature
both match when exactly one exists, fails `NoSuchAction` on zero matches,
fails `AmbiguousAction` on more than one match, and any id it returns
belongs to an action matching both name and signature — never name
alone. -/
theorem findAction_correct (m : MetaObject) (nm : String)
    (sigs : List String) :
    (m.actions.filter (actionMatches nm sigs) = [] →
      findAction m nm sigs = .error .noSuchAction) ∧
    (∀ a, m.actions.filter (actionMatches nm sigs) = [a] →
      findAction m nm sigs = .ok a.aid) ∧
    (2 ≤ (m.actions.filter (actionMatches nm sigs)).length →
      findAction m nm sigs = .error .ambiguousAction) ∧
    (∀ i, findAction m nm sigs = .ok i →
      ∃ a ∈ m.actions, a.aid = i ∧ a.aname = nm ∧ a.paramSig = sigs) := by
  refine ⟨?_, ?_, ?_, ?_⟩
  · intro h
    simp [findAction, h]
  · intro a h
    simp [findAction, h]
  · intro h
    rcases hl : m.actions.filter (actionMatches nm sigs)
      with _ | ⟨a, _ | ⟨b, r⟩⟩
    · rw [hl] at h; simp at h
    · rw [hl] at h; simp at h
    · simp [findAction, hl]
  · intro i h
    rcases hl : m.actions.filter (actionMatches nm sigs)
      with _ | ⟨a, _ | ⟨b, r⟩⟩ <;> simp [findAction, hl] at h
    have ha : a ∈ m.actions.filter (actionMatches nm sigs) := by
      rw [hl]; exact List.mem_singleton.mpr rfl
    rw [List.mem_filter] at ha
    have hm := ha.2
    simp only [actionMatches, Bool.and_eq_true, beq_iff_eq] at hm
    exact ⟨a, ha.1, h, hm.1, hm.2⟩

/-- C4 witness: on a MetaObject with two same-named actions the query is
settled by the signature, and an absent signature yields `NoSuchAction`. -/
theorem findAction_correct_witness :
    (MetaObject.mk [ActionDesc.mk 1 "give" ["o"] "v",
      ActionDesc.mk 2 "give" ["i"] "v"]).actions.filter
        (actionMatches "give" ["i"]) = [ActionDesc.mk 2 "give" ["i"] "v"] ∧
    findAction (MetaObject.mk [ActionDesc.mk 1 "give" ["o"] "v",
      ActionDesc.mk 2 "give" ["i"] "v"]) "give" ["i"] = .ok 2 :=
  ⟨by decide,
   (findAction_correct (MetaObject.mk [ActionDesc.mk 1 "give" ["o"] "v",
      ActionDesc.mk 2 "give" ["i"] "v"]) "give" ["i"]).2.1
     (ActionDesc.mk 2 "give" ["i"] "v") (by decide)⟩

/-- Recursion step of the `tuple_element` specializations: for any index
`n + 1` on a non-empty pack, the result is `tuple_element n` on the tail
(the index-1 and index-2 specializations agree with the recursive one). -/
theorem tuple_element_succ_cons :
    ∀ (n : Nat) (t : α) (u : List α),
      tuple_element (n + 1) (t :: u) = tuple_element n u
  | 0, _, [] => rfl
  | 0, _, _ :: _ => rfl
  | 1, _, [] => rfl
  | 1, _, [_] => rfl
  | 1, _, _ :: _ :: _ => rfl
  | _ + 2, _, [] => rfl
  | _ + 2, _, [_] => rfl
  | _ + 2, _, _ :: _ :: _ => rfl

/-- C10: for every pack and every index below the pack's length,
`std::tuple_element` on `ka::type_t` yields the index-th type of the
pack. -/
theorem tuple_element_nth (l : List α) (n : Nat) (h : n < l.length) :
    tuple_element n l = some (l.get ⟨n, h⟩) := by
  induction l generalizing n with
  | nil => simp at h
  | cons t u ih =>
    cases n with
    | zero => rfl
    | succ m =>
      rw [tuple_element_succ_cons]
      exact ih m (by simpa using h)

/-- C10 witness: index 2 of a three-type pack is its third type. -/
theorem tuple_element_nth_witness :
    2 < [10, 20, 30].length ∧ tuple_element 2 [10, 20, 30] = some 30 :=
  ⟨by decide, tuple_element_nth [10, 20, 30] 2 (by decide)⟩

/-- Futures whose id is not in the processed pending entries keep their
state under `rejectAll`. -/
theorem rejectAll_eq_of_not_mem (l : List (Nat × Nat))
    (fs : Nat → CallState) (f : Nat) (h : f ∉ l.map Prod.snd) :
    rejectAll fs l f = fs f := by
  induction l generalizing fs with
  | nil => rfl
  | cons e rest ih =>
    simp only [List.map_cons, List.mem_cons, not_or] at h
    rw [rejectAll, ih _ h.2]
    simp [setFut, h.1]

/-- Every future referenced by a pending entry is rejected with
`ConnectionClosed` by `rejectAll`. -/
theorem rejectAll_mem (l : List (Nat × Nat)) (fs : Nat → CallState)
    (f : Nat) (h : f ∈ l.map Prod.snd) :
    rejectAll fs l f = .failed .connectionClosed := by
  induction l generalizing fs with
  | nil => simp at h
  | cons e rest ih =>
    by_cases hm : f ∈ rest.map Prod.snd
    · rw [rejectAll]
      exact ih _ hm
    · have hf : f = e.2 := by
        simp only [List.map_cons, List.mem_cons] at h
        exact h.resolve_right hm
      rw [rejectAll, rejectAll_eq_of_not_mem rest _ f hm]
      simp [setFut, hf]

/-- A matched pending entry's future id is among the pending future
ids. -/
theorem findPending_mem (l : List (Nat × Nat)) (k f : Nat)
    (h : findPending l k = some f) : f ∈ l.map Prod.snd := by
  induction l with
  | nil => simp [findPending] at h
  | cons e rest ih =>
    rw [findPending] at h
    by_cases he : e.1 = k
    · rw [if_pos he] at h
      exact List.mem_map.mpr ⟨e, List.mem_cons_self e rest, Option.some_inj.mp h⟩
    · rw [if_neg he] at h
      simp [ih h]

/-- C5: `close()` empties the pending table and rejects every pending
Future with `ConnectionClosed`; afterwards every frame is dropped without
changing the connection, and on any connection a frame can only resolve a
future listed in that connection's own pending table — never a stale
one. -/
theorem close_rejects_pending (c : Conn) :
    (close c).pending = [] ∧
    (∀ p ∈ c.pending, (close c).futures p.2 = .failed .connectionClosed) ∧
    (∀ k v, onReply (close c) k v = close c) ∧
    (∀ (cNew : Conn) (k : Nat) (v : PVal) (f : Nat),
      f ∉ cNew.pending.map Prod.snd →
      (onReply cNew k v).futures f = cNew.futures f) := by
  refine ⟨rfl, ?_, ?_, ?_⟩
  · intro p hp
    exact rejectAll_mem c.pending c.futures p.2
      (List.mem_map_of_mem Prod.snd hp)
  · intro k v
    rfl
  · intro cNew k v f hf
    rcases hfp : findPending cNew.pending k with _ | f'
    · simp [onReply, hfp]
    · have hf' : f' ∈ cNew.pending.map Prod.snd :=
        findPending_mem cNew.pending k f' hfp
      have hne : f ≠ f' := fun he => hf (he ▸ hf')
      simp [onReply, hfp, setFut, hne]

/-- C5 witness: closing a connection with two awaiting calls rejects
both futures with `ConnectionClosed`, and a later frame carrying a stale
correlation id does not touch a fresh connection's unrelated future. -/
theorem close_rejects_pending_witness :
    (1, 10) ∈ (Conn.mk [(1, 10), (2, 11)] (fun _ => .awaitingReply)).pending ∧
    (close (Conn.mk [(1, 10), (2, 11)]
      (fun _ => .awaitingReply))).futures 10 = .failed .connectionClosed ∧
    ((10 : Nat) ∉ ((Conn.mk [(5, 20)]
      (fun _ => .awaitingReply)).pending.map Prod.snd) ∧
     (onReply (Conn.mk [(5, 20)] (fun _ => .awaitingReply)) 1 0).futures 10 =
       (Conn.mk [(5, 20)] (fun _ => .awaitingReply)).futures 10) :=
  ⟨by simp,
   (close_rejects_pending
     (Conn.mk [(1, 10), (2, 11)] (fun _ => .awaitingReply))).2.1
     (1, 10) (by simp),
   by simp,
   (close_rejects_pending
     (Conn.mk [(1, 10), (2, 11)] (fun _ => .awaitingReply))).2.2.2
     (Conn.mk [(5, 20)] (fun _ => .awaitingReply)) 1 0 10 (by simp)⟩

/-- After resolving a reference, the cache maps that reference to the
returned Proxy. -/
theorem lookupRef_resolveRef_self (ep : Endpoint) (r : Ref) :
    lookupRef (resolveRef ep r).1.cache r = some (resolveRef ep r).2 := by
  rcases h : lookupRef ep.cache r with _ | p <;>
    simp [resolveRef, h, lookupRef]

/-- Resolving any other reference never changes what an already-cached
reference resolves to. -/
theorem lookupRef_resolveRef_preserved (ep : Endpoint) (r r' : Ref)
    (p : Proxy) (h : lookupRef ep.cache r = some p) :
    lookupRef (resolveRef ep r').1.cache r = some p := by
  rcases h' : lookupRef ep.cache r' with _ | q
  · have hne : r' ≠ r := by
      rintro rfl
      rw [h] at h'
      exact Option.noConfusion h'
    simp [resolveRef, h', lookupRef, hne, h]
  · simp [resolveRef, h', h]

/-- An already-cached reference survives any sequence of further
resolutions. -/
theorem lookupRef_resolveSeq_preserved (rs : List Ref) (ep : Endpoint)
    (r : Ref) (p : Proxy) (h : lookupRef ep.cache r = some p) :
    lookupRef (resolveSeq ep rs).cache r = some p := by
  induction rs generalizing ep with
  | nil => exact h
  | cons r' rs ih =>
    rw [resolveSeq]
    exact ih _ (lookupRef_resolveRef_preserved ep r r' p h)

/-- A successful cache lookup comes from an entry keyed by the looked-up
reference. -/
theorem lookupRef_key_mem (cache : List (Ref × Proxy)) (r : Ref)
    (p : Proxy) (h : lookupRef cache r = some p) : (r, p) ∈ cache := by
  induction cache with
  | nil => simp [lookupRef] at h
  | cons e rest ih =>
    rw [lookupRef] at h
    by_cases he : e.1 = r
    · rw [if_pos he] at h
      rw [← he, ← Option.some_inj.mp h]
      exact List.mem_cons_self e rest
    · rw [if_neg he] at h
      exact List.mem_cons_of_mem e (ih h)

/-- On a well-formed cache, the Proxy returned by `resolveRef` identifies
exactly the resolved reference. -/
theorem resolveRef_fields (ep : Endpoint) (r : Ref)
    (hwf : cacheWF ep.cache) :
    (resolveRef ep r).2.peerEndpointId = r.1 ∧
    (resolveRef ep r).2.objectId = r.2 := by
  rcases h : lookupRef ep.cache r with _ | p
  · simp [resolveRef, h]
  · have hm := hwf (r, p) (lookupRef_key_mem ep.cache r p h)
    simpa [resolveRef, h] using hm

/-- C1: reference identity is preserved round-trip.  Once an Endpoint has
resolved a reference (endpoint id, object id) to a Proxy, resolving the
same reference again after any further hops returns that very Proxy with
the cache unchanged, and the Proxy identifies the original endpoint and
object ids. -/
theorem proxy_reference_identity (ep : Endpoint) (r : Ref) (rs : List Ref)
    (hwf : cacheWF ep.cache) :
    resolveRef (resolveSeq (resolveRef ep r).1 rs) r
      = (resolveSeq (resolveRef ep r).1 rs, (resolveRef ep r).2) ∧
    (resolveRef ep r).2.peerEndpointId = r.1 ∧
    (resolveRef ep r).2.objectId = r.2 := by
  constructor
  · have h2 := lookupRef_resolveSeq_preserved rs _ r _
      (lookupRef_resolveRef_self ep r)
    revert h2
    generalize resolveSeq (resolveRef ep r).1 rs = ep2
    generalize (resolveRef ep r).2 = p
    intro h2
    simp [resolveRef, h2]
  · exact resolveRef_fields ep r hwf

/-- C1 witness: in a give/take exchange starting from an empty cache,
the reference (1, 7) resolves to the same Proxy after two further hops,
and that Proxy carries endpoint id 1 and object id 7. -/
theorem proxy_reference_identity_witness :
    cacheWF (Endpoint.mk [] 0).cache ∧
    (resolveRef
        (resolveSeq (resolveRef (Endpoint.mk [] 0) (1, 7)).1
          [(2, 3), (1, 7)]) (1, 7)
      = (resolveSeq (resolveRef (Endpoint.mk [] 0) (1, 7)).1
          [(2, 3), (1, 7)],
         (resolveRef (Endpoint.mk [] 0) (1, 7)).2) ∧
     (resolveRef (Endpoint.mk [] 0) (1, 7)).2.peerEndpointId = 1 ∧
     (resolveRef (Endpoint.mk [] 0) (1, 7)).2.objectId = 7) :=
  ⟨by intro e he; simp at he,
   proxy_reference_identity (Endpoint.mk [] 0) (1, 7) [(2, 3), (1, 7)]
     (by intro e he; simp at he)⟩

end Qi
